import Mathlib

/-!
Shallow embedding of the tox parallel-run core: the subprocess execution
engine (`src/tox/execute`), the run scheduler / driver loop
(`src/tox/session/cmd/run/common.py`) and the progress spinner
(`src/tox/util/spinner.py`).

Conventions of the embedding:
* Python `dict` snapshots are association lists; lookup takes the first
  matching key (keys are unique in every snapshot the code builds).
* Monotonic clock readings are `Int` (the code uses floats only to subtract
  them; no float arithmetic influences any modelled decision).
* Wait budgets are natural numbers in milliseconds (the code uses the float
  constants `WAIT_INTERRUPT = 0.3` and `WAIT_TERMINATE = 0.2` seconds).
* Fallible Python code (`KeyError`, `IndexError`, `OSError`) is `Except`.
* Output formatting that has no influence on any control-flow decision
  (float `"%.2f"` rendering, `td_human_readable`) is not modelled; the
  values that feed it are.
-/

namespace Tox

/-- Python exception kinds raised by the embedded fragments. -/
inductive PyErr where
  | keyError
  | indexError
  deriving DecidableEq, Repr

/-- Dictionary lookup (`d[k]` semantics, as `Option`): association-list
snapshot of an environment-variable mapping. -/
def lookupEnv (env : List (String × String)) (key : String) : Option String :=
  (env.find? (fun p => p.1 = key)).map (fun p => p.2)

/-- Source of the stdin stream of a request. Modelled from the spec:
`src/tox/execute/request.py` is not in the tree; §3 gives
`stdin_source ∈ OFF | USER | API`. -/
inductive StdinSource where
  | OFF
  | USER
  | API
  deriving DecidableEq, Repr

/-- One command execution request. Modelled from the spec:
`src/tox/execute/request.py` is not in the tree; §3 gives the attributes
`argv` (here `cmd`, the name the execute engine uses), `cwd`, the resolved
environment snapshot and the stdin source. -/
structure ExecuteRequest where
  cmd : List String
  cwd : String
  env : List (String × String)
  stdin : StdinSource
  deriving DecidableEq, Repr

/-- Result of a command execution (`Outcome`, `src/tox/execute/api.py`
lines 155-214). `exit_code` is `Optional[int]`; timestamps are monotonic
clock readings. -/
structure Outcome where
  request : ExecuteRequest
  show_on_standard : Bool
  exit_code : Option Int
  out : String
  err : String
  start : Int
  end_ : Int
  cmd : List String
  deriving DecidableEq, Repr

namespace Outcome

/-- Constant `Outcome.OK = 0` (`api.py` line 158). -/
def OK : Int := 0

/-- Method `Outcome.__bool__` (`api.py` lines 180-181): `self.exit_code == self.OK`,
where `exit_code` may be `None` (and `None == 0` is `False` in Python). -/
def toBool (o : Outcome) : Bool :=
  o.exit_code == some OK

/-- Property `Outcome.elapsed` (`api.py` lines 209-211): `self.end - self.start`. -/
def elapsed (o : Outcome) : Int :=
  o.end_ - o.start

end Outcome

/-! ### The `cmd` property of `LocalSubProcessExecuteInstance`
(`src/tox/execute/local_sub_process/__init__.py` lines 118-128).

`shutil.which` consults the file system; it is a parameter `whichFn`
taking the command word and the `PATH` value and returning the resolved
absolute executable, when one is found. Python evaluates
`self.request.cmd[0]` before `self.request.env["PATH"]`, so an empty argv
raises `IndexError` before a missing `PATH` key can raise `KeyError`. -/

/-- One uncached evaluation of the body of the `cmd` property. -/
def cmdCompute (argv : List String) (env : List (String × String))
    (whichFn : String → String → Option String) : Except PyErr (List String) :=
  match argv with
  | [] => .error .indexError
  | word :: rest =>
    match lookupEnv env "PATH" with
    | none => .error .keyError
    | some path =>
      match whichFn word path with
      | none => .ok (word :: rest)
      | some executable => .ok (executable :: rest)

/-- The `_cmd` cache slot of a `LocalSubProcessExecuteInstance`
(`__init__` sets it to `None`). -/
structure CmdCache where
  _cmd : Option (List String)
  deriving DecidableEq, Repr

/-- The `cmd` property: return the cached value when present, else compute
it once and store it (`local_sub_process/__init__.py` lines 118-128). -/
def cmd_property (st : CmdCache) (argv : List String) (env : List (String × String))
    (whichFn : String → String → Option String) : Except PyErr (List String × CmdCache) :=
  match st._cmd with
  | some cached => .ok (cached, st)
  | none =>
    match cmdCompute argv env whichFn with
    | .error e => .error e
    | .ok c => .ok (c, ⟨some c⟩)

/-! ### Spawn failure path of `Execute.call`
(`api.py` lines 74-112 with `LocalSubProcessExecuteInstance.__enter__`,
`local_sub_process/__init__.py` lines 130-143).

When `Popen` raises `OSError`, `__enter__` returns a
`LocalSubprocessExecuteFailedStatus` whose `exit_code` is the exception's
`errno` (an `Optional[int]`). No drain threads are started, so the two
`SyncWrite` buffers remain empty, and `call` builds the `Outcome` from
the status exit code, the empty buffer texts and the (already resolved and
cached) `instance.cmd`. -/
def callSpawnFailure (request : ExecuteRequest) (showFlag : Bool)
    (whichFn : String → String → Option String) (errno : Option Int)
    (startT endT : Int) : Except PyErr Outcome :=
  match cmdCompute request.cmd request.env whichFn with
  | .error e => .error e
  | .ok resolved =>
    .ok { request := request
          show_on_standard := showFlag
          exit_code := errno
          out := ""
          err := ""
          start := startT
          end_ := endT
          cmd := resolved }

/-! ### The interrupt cascade
(`LocalSubProcessExecuteInstance.interrupt`,
`local_sub_process/__init__.py` lines 191-220).

The child process is external; its behaviour under the cascade is a
`ProcessSpec` oracle: whether it is still alive when the cascade starts,
whether it exits inside the first and the second `communicate` window, the
residual `(out, err)` bytes each `communicate` drains, and its final
`returncode`. `communicate` on an already-dead process can raise
`ValueError` when the streams were already drained; `res_dead = none`
models that branch (the code then uses `(b"", b"")`). -/

/-- Wait budget after the soft interrupt, milliseconds
(`WAIT_INTERRUPT = 0.3` seconds, line 36). -/
def WAIT_INTERRUPT : Nat := 300

/-- Wait budget intended for the terminate stage, milliseconds
(`WAIT_TERMINATE = 0.2` seconds, line 37). The constant is defined by the
module but never used: both `communicate` calls pass `WAIT_INTERRUPT`. -/
def WAIT_TERMINATE : Nat := 200

/-- Observable actions of the cascade, in program order. -/
inductive CascadeEvent where
  | send_signal_int
  | terminate
  | kill
  | communicate (timeoutMs : Option Nat)
  | out_handler (bytes : String)
  | err_handler (bytes : String)
  deriving DecidableEq, Repr

/-- Behaviour of the child under the cascade. -/
structure ProcessSpec where
  alive : Bool
  dies_within_first_wait : Bool
  dies_within_second_wait : Bool
  res_first : String × String
  res_second : String × String
  res_kill : String × String
  res_dead : Option (String × String)
  returncode : Int
  deriving DecidableEq, Repr

/-- Method `LocalSubProcessExecuteInstance.interrupt` (lines 191-220): when a
process exists, escalate INT → TERM → KILL with the timeouts the source
passes (`WAIT_INTERRUPT` on both bounded waits), drain the residual output
into the two handlers and return the final return code; with no process
return `Outcome.OK`. -/
def interruptCascade (process : Option ProcessSpec) : List CascadeEvent × Int :=
  match process with
  | none => ([], Outcome.OK)
  | some proc =>
    if proc.alive then
      if proc.dies_within_first_wait then
        ([.send_signal_int, .communicate (some WAIT_INTERRUPT),
          .out_handler proc.res_first.1, .err_handler proc.res_first.2], proc.returncode)
      else if proc.dies_within_second_wait then
        ([.send_signal_int, .communicate (some WAIT_INTERRUPT),
          .terminate, .communicate (some WAIT_INTERRUPT),
          .out_handler proc.res_second.1, .err_handler proc.res_second.2], proc.returncode)
      else
        ([.send_signal_int, .communicate (some WAIT_INTERRUPT),
          .terminate, .communicate (some WAIT_INTERRUPT),
          .kill, .communicate none,
          .out_handler proc.res_kill.1, .err_handler proc.res_kill.2], proc.returncode)
    else
      let oe := proc.res_dead.getD ("", "")
      ([.communicate none, .out_handler oe.1, .err_handler oe.2], proc.returncode)

/-! ### Run results and the final report
(`src/tox/session/cmd/run/common.py`). -/

/-- Aggregate result of one environment (`ToxEnvRunResult`, constructed in
`common.py` lines 259 and 275-277; its dataclass lives in
`session/cmd/run/single.py`, not in the tree, with exactly the fields the
driver reads: `name`, `skipped`, `code`, `outcomes`, `duration`). -/
structure ToxEnvRunResult where
  name : String
  skipped : Bool
  code : Int
  outcomes : List Outcome
  duration : Int
  deriving DecidableEq, Repr

/-- Sentinel duration of a synthesized result. `MISS_DURATION` is imported
from `tox.util.spinner`; the spinner module in the tree predates it.
Modelled from the spec: a fixed sentinel whose value no modelled decision
reads. -/
def MISS_DURATION : Int := -1

/-- Exit-code computation of `report` (`common.py` lines 139-160). The
printed per-environment lines and the float duration formatting do not
feed back into the returned value: `all_ok` folds `run.code == Outcome.OK`
over the runs exactly as the loop does, and the return value is
`Outcome.OK`, or `runs[0].code` when there is exactly one run, or `-1`. -/
def report (runs : List ToxEnvRunResult) : Int :=
  let all_ok := runs.foldl (fun acc run => (run.code == Outcome.OK) && acc) true
  if all_ok then
    Outcome.OK
  else
    match runs with
    | [single] => single.code
    | _ => -1

/-! ### The ready-batch generator
(`ready_to_run_envs`, `common.py` lines 320-334, over the `(order, todo)`
pair that `run_order` (lines 337-348) produces: `order` is the stable
topological order of the universe and `todo[env]` is the set of
dependencies of `env` restricted to the universe). The generator body is
a `while order:` loop; one advance walks the whole remaining `order`,
collects into `ready_to_run` every env whose `todo[env] - completed` is
empty and keeps the others, in order, as the new `order`. -/

/-- One pass of the `for env in order:` loop body (lines 327-332),
returning `(ready_to_run, new_order)`. -/
def collectBatch (order : List String) (todo : String → List String)
    (completed : List String) : List String × List String :=
  match order with
  | [] => ([], [])
  | env :: rest =>
    let tail := collectBatch rest todo completed
    if (todo env).all (fun d => d ∈ completed) then
      (env :: tail.1, tail.2)
    else
      (tail.1, env :: tail.2)

/-- One advance of the `ready_to_run_envs` generator: yields the next batch
and the remaining order. An exhausted generator (`order = []`) corresponds
to `next(envs_to_run_generator, [])` returning the default `[]`. -/
def readyToRunEnvsNext (order : List String) (todo : String → List String)
    (completed : List String) : List String × List String :=
  if order.isEmpty then ([], []) else collectBatch order todo completed

/-- Modelled from the spec: the batch the claim describes — advance through
the topological order consuming environments until encountering one whose
dependencies are not yet complete, and yield the list collected so far.
Used only to compare against `readyToRunEnvsNext`. -/
def batchUpToFirstBlocked (order : List String) (todo : String → List String)
    (completed : List String) : List String :=
  order.takeWhile (fun env => (todo env).all (fun d => d ∈ completed))

/-- The dependency set the driver consults for an env: the names in its
`depends` restricted to the `to_run` universe (`run_order`, line 346:
`todo[env] = to_run_set & depends`). -/
def todoOf (univ : List String) (depends : String → List String) (env : String) : List String :=
  (depends env).filter (fun d => d ∈ univ)

/-! ### The driver loop
(`_queue_and_wait`, `common.py` lines 228-302).

One `step` is one iteration of the `while True:` body:
* queue phase (lines 254-263): every env of the previously computed
  `env_list` either becomes a pre-resolved `Future` holding a synthesized
  `code = -2` result after its teardown was called (when `interrupt` was
  observed set), or is submitted to the worker pool;
* wait phase (lines 265-279): when any future is pending, one completed
  future is popped (`as_completed` returns an arbitrary completed one —
  the oracle's `pick` chooses); its result is the worker's
  `ToxEnvRunResult`, or a synthesized `code = -3` result after teardown
  when the future was cancelled; the result is appended and its name added
  to `completed`;
* generator phase (line 281): the next batch is pulled from
  `ready_to_run_envs` against the live `completed` set.

Everything the outside world decides — the `interrupt` event's value at
each check, which future completes first, what `run_one` returns, whether
a future was cancelled — is supplied by a `StepOracle`. -/

/-- A value in `future_to_env`: either a `Future` whose result was set
up-front (interrupted path) or a worker submitted to the pool. -/
inductive FutureVal where
  | preset (r : ToxEnvRunResult)
  | worker (env : String)
  deriving DecidableEq, Repr

/-- What `future.result()` yields for a submitted worker. -/
inductive WorkerResult where
  | finished (skipped : Bool) (code : Int) (outcomes : List Outcome) (duration : Int)
  | cancelled
  deriving DecidableEq, Repr

/-- External nondeterminism of one driver iteration. -/
structure StepOracle where
  interrupt_at : String → Bool
  pick : Nat
  worker_result : String → WorkerResult

/-- Observable actions of one driver iteration. -/
inductive DriverEvent where
  | submitted (env : String)
  | preset_queued (r : ToxEnvRunResult)
  | teardown (env : String)
  deriving DecidableEq, Repr

/-- Queue-phase treatment of one env of `env_list` (lines 255-263): under
an observed interrupt, tear the env down and queue a future pre-resolved
to `code = -2, outcomes = []`; otherwise submit a worker. -/
def queueEnv (interruptNow : Bool) (env : String) : FutureVal × List DriverEvent :=
  if interruptNow then
    (.preset ⟨env, false, -2, [], MISS_DURATION⟩,
     [.teardown env, .preset_queued ⟨env, false, -2, [], MISS_DURATION⟩])
  else
    (.worker env, [.submitted env])

/-- Wait-phase resolution of the popped future (lines 270-277): a preset
future yields its stored result; a worker yields `run_one`'s result, or a
synthesized `code = -3, outcomes = []` result after teardown when the
future raises `CancelledError`. -/
def resolveFuture (o : StepOracle) (f : FutureVal) : ToxEnvRunResult × List DriverEvent :=
  match f with
  | .preset r => (r, [])
  | .worker env =>
    match o.worker_result env with
    | .finished sk c outs d => (⟨env, sk, c, outs, d⟩, [])
    | .cancelled => (⟨env, false, -3, [], MISS_DURATION⟩, [.teardown env])

/-- Driver-loop state across iterations: the batch to queue next, the
pending futures, the completed names, the collected results and the
generator's remaining order. -/
structure DriverState where
  env_list : List String
  futures : List FutureVal
  completed : List String
  results : List ToxEnvRunResult
  order : List String
  deriving DecidableEq, Repr

/-- The pending futures after the queue phase. -/
def futuresAfterQueue (o : StepOracle) (s : DriverState) : List FutureVal :=
  s.futures ++ s.env_list.map (fun e => (queueEnv (o.interrupt_at e) e).1)

/-- One iteration of the `while True:` loop of `_queue_and_wait`, returning
the successor state and the iteration's events. The loop exits when the
new batch and the pending futures are both empty (`final_run`). -/
def step (todo : String → List String) (o : StepOracle) (s : DriverState) :
    DriverState × List DriverEvent :=
  let evQueue := (s.env_list.map (fun e => (queueEnv (o.interrupt_at e) e).2)).flatten
  let fs := futuresAfterQueue o s
  if h : fs = [] then
    let nxt := readyToRunEnvsNext s.order todo s.completed
    ({ env_list := nxt.1, futures := [], completed := s.completed,
       results := s.results, order := nxt.2 }, evQueue)
  else
    let i : Fin fs.length := ⟨o.pick % fs.length, Nat.mod_lt _ (List.length_pos.mpr h)⟩
    let f := fs.get i
    let rest := fs.eraseIdx i.1
    let rr := resolveFuture o f
    let completed2 := s.completed ++ [rr.1.name]
    let nxt := readyToRunEnvsNext s.order todo completed2
    ({ env_list := nxt.1, futures := rest, completed := completed2,
       results := s.results ++ [rr.1], order := nxt.2 }, evQueue ++ rr.2)

/-- Reachable driver states: the loop enters with an empty batch, no
futures, no completions, no results, and the topological order the
generator was created over; every iteration applies `step` under some
oracle. -/
inductive Reachable (todo : String → List String) : DriverState → Prop where
  | init (order0 : List String) : Reachable todo ⟨[], [], [], [], order0⟩
  | next (s : DriverState) (o : StepOracle) :
      Reachable todo s → Reachable todo (step todo o s).1

/-! ### The spinner (`src/tox/util/spinner.py`).

Text is `List Char` (Python `len` and slicing count code points). The
`_envs` dict is an insertion-ordered association list from env name to the
`datetime.now()` reading at `add` time; clock readings are `Nat`. The
render thread, terminal cursor handling and the `td_human_readable`
duration formatting print no state any claim reads; `finalize`'s printed
summary line is returned as its `(status, name, duration)` content. -/

namespace Spinner

/-- Constant `Spinner.max_width = 120` (line 23). -/
def max_width : Nat := 120

/-- Constant `Spinner.frames` (line 24): ten one-character braille glyphs. -/
def frames : List (List Char) :=
  [['⠋'], ['⠙'], ['⠹'], ['⠸'], ['⠼'], ['⠴'], ['⠦'], ['⠧'], ['⠇'], ['⠏']]

/-- In-memory spinner state: the `_envs` dict, the `_frame_index` counter
and the `enabled` flag. -/
structure State where
  envs : List (String × Nat)
  frame_index : Nat
  enabled : Bool
  deriving DecidableEq, Repr

/-- Python dict assignment `d[k] = v`: update in place when the key
exists (keeping its position), else append. -/
def dictSet (l : List (String × Nat)) (k : String) (v : Nat) : List (String × Nat) :=
  if l.any (fun p => p.1 = k) then
    l.map (fun p => if p.1 = k then (k, v) else p)
  else
    l ++ [(k, v)]

/-- Python dict read `d[k]` as `Option`. -/
def dictGet (l : List (String × Nat)) (k : String) : Option Nat :=
  (l.find? (fun p => p.1 = k)).map (fun p => p.2)

/-- Python `del d[k]` on a key known to exist. -/
def dictDel (l : List (String × Nat)) (k : String) : List (String × Nat) :=
  l.filter (fun p => p.1 ≠ k)

/-- Method `Spinner.add` (lines 33-34): `self._envs[name] = datetime.now()`. -/
def add (st : State) (name : String) (now : Nat) : State :=
  { st with envs := dictSet st.envs name now }

/-- The `text_frame` local of `Spinner.frame` (lines 58-60):
`"[{count}] {names joined by \x7b' | '\x7d}"`, truncated to
`max_width - 1 - 3` characters plus `"..."` when longer than
`max_width - 1`. -/
def text_frame (envs : List (String × Nat)) : List Char :=
  let t := ('[' :: (toString envs.length).toList) ++ (']' :: ' ' :: [])
             ++ List.intercalate [' ', '|', ' '] (envs.map (fun p => p.1.toList))
  if t.length > max_width - 1 then
    t.take (max_width - 1 - 3) ++ ['.', '.', '.']
  else
    t

/-- Method `Spinner.frame` (lines 54-61): pick the glyph at `_frame_index`,
advance the index modulo the glyph count, and render
`"{glyph} {text_frame}"`. -/
def frame (st : State) : List Char × State :=
  let glyph := frames.getD st.frame_index []
  let idx := (st.frame_index + 1) % frames.length
  (glyph ++ ' ' :: text_frame st.envs, { st with frame_index := idx })

/-- Method `Spinner.finalize` (lines 83-95): read `self._envs[key]` (raising
`KeyError` when absent), delete the key, and print the one-line summary —
returned here as its `(status, key, duration)` content. The renderer
shutdown on the last key (line 94-95) touches no state a claim reads. -/
def finalize (st : State) (key : String) (status : String) (now : Nat) :
    Except PyErr ((String × String × Nat) × State) :=
  match dictGet st.envs key with
  | none => .error .keyError
  | some start_at =>
    .ok ((status, key, now - start_at), { st with envs := dictDel st.envs key })

/-- Method `Spinner.succeed` (lines 74-75). -/
def succeed (st : State) (key : String) (now : Nat) :
    Except PyErr ((String × String × Nat) × State) :=
  finalize st key "✔ OK" now

/-- Method `Spinner.fail` (lines 77-78). -/
def fail (st : State) (key : String) (now : Nat) :
    Except PyErr ((String × String × Nat) × State) :=
  finalize st key "✖ FAIL" now

/-- Method `Spinner.skip` (lines 80-81). -/
def skip (st : State) (key : String) (now : Nat) :
    Except PyErr ((String × String × Nat) × State) :=
  finalize st key "⚠ SKIP" now

end Spinner

/-! ## Helper lemmas -/

/-- The queue-phase loop of `collectBatch` partitions the order by
readiness, preserving relative order on both sides. -/
theorem collectBatch_eq_filter (todo : String → List String) (completed : List String) :
    ∀ order : List String,
      collectBatch order todo completed =
        (order.filter (fun e => (todo e).all (fun d => d ∈ completed)),
         order.filter (fun e => !(todo e).all (fun d => d ∈ completed))) := by
  intro order
  induction order with
  | nil => simp [collectBatch]
  | cons env rest ih =>
    by_cases h : (todo env).all (fun d => d ∈ completed)
    · simp [collectBatch, ih, List.filter_cons, h]
    · simp [collectBatch, ih, List.filter_cons, h]

/-- Every member of a yielded batch has all its tracked dependencies in the
completed set the generator was advanced against. -/
theorem mem_ready_batch (order : List String) (todo : String → List String)
    (completed : List String) (e : String)
    (he : e ∈ (readyToRunEnvsNext order todo completed).1) :
    (todo e).all (fun d => d ∈ completed) = true := by
  unfold readyToRunEnvsNext at he
  split at he
  · simp at he
  · rw [collectBatch_eq_filter] at he
    simp only [List.mem_filter, List.all_eq_true, decide_eq_true_eq] at he
    rw [List.all_eq_true]
    intro d hd
    simpa using he.2 d hd

/-- Branch equation of `step` when no future is pending after the queue
phase (`result = None`): only the generator advances. -/
theorem step_eq_empty (todo : String → List String) (o : StepOracle) (s : DriverState)
    (h : futuresAfterQueue o s = []) :
    step todo o s =
      ({ env_list := (readyToRunEnvsNext s.order todo s.completed).1,
         futures := [],
         completed := s.completed,
         results := s.results,
         order := (readyToRunEnvsNext s.order todo s.completed).2 },
       (s.env_list.map (fun e => (queueEnv (o.interrupt_at e) e).2)).flatten) := by
  simp [step, h]

/-- Branch equation of `step` when some future is pending: one completed
future is popped and its result collected. -/
theorem step_eq_pop (todo : String → List String) (o : StepOracle) (s : DriverState)
    (h : ¬futuresAfterQueue o s = []) :
    step todo o s =
      (({ env_list := (readyToRunEnvsNext s.order todo (s.completed ++
            [(resolveFuture o ((futuresAfterQueue o s).get
              ⟨o.pick % (futuresAfterQueue o s).length,
               Nat.mod_lt _ (List.length_pos.mpr h)⟩)).1.name])).1,
          futures := (futuresAfterQueue o s).eraseIdx
            (o.pick % (futuresAfterQueue o s).length),
          completed := s.completed ++
            [(resolveFuture o ((futuresAfterQueue o s).get
              ⟨o.pick % (futuresAfterQueue o s).length,
               Nat.mod_lt _ (List.length_pos.mpr h)⟩)).1.name],
          results := s.results ++
            [(resolveFuture o ((futuresAfterQueue o s).get
              ⟨o.pick % (futuresAfterQueue o s).length,
               Nat.mod_lt _ (List.length_pos.mpr h)⟩)).1],
          order := (readyToRunEnvsNext s.order todo (s.completed ++
            [(resolveFuture o ((futuresAfterQueue o s).get
              ⟨o.pick % (futuresAfterQueue o s).length,
               Nat.mod_lt _ (List.length_pos.mpr h)⟩)).1.name])).2 }),
       (s.env_list.map (fun e => (queueEnv (o.interrupt_at e) e).2)).flatten ++
         (resolveFuture o ((futuresAfterQueue o s).get
           ⟨o.pick % (futuresAfterQueue o s).length,
            Nat.mod_lt _ (List.length_pos.mpr h)⟩)).2) := by
  simp [step, h]

/-- Every step re-establishes the driver invariant: the batch that will be
queued next was checked against the step's final completed set. -/
theorem step_env_list_ready (todo : String → List String) (o : StepOracle)
    (s : DriverState) :
    ∀ e ∈ (step todo o s).1.env_list,
      (todo e).all (fun d => d ∈ (step todo o s).1.completed) = true := by
  intro e he
  by_cases h : futuresAfterQueue o s = []
  · rw [step_eq_empty todo o s h] at he ⊢
    exact mem_ready_batch _ _ _ _ he
  · rw [step_eq_pop todo o s h] at he ⊢
    exact mem_ready_batch _ _ _ _ he

/-- Driver invariant: in every reachable state, every env of the pending
batch has all its tracked dependencies completed. -/
theorem reachable_env_list_ready (todo : String → List String) (s : DriverState)
    (hs : Reachable todo s) :
    ∀ e ∈ s.env_list, (todo e).all (fun d => d ∈ s.completed) = true := by
  cases hs with
  | init order0 => intro e he; simp at he
  | next s' o hs' => exact step_env_list_ready todo o s'

/-- A `submitted` event of the queue phase pins down its env: it was in the
batch and the interrupt flag read false for it. -/
theorem submitted_mem_queue_events (o : StepOracle) (env_list : List String) (env : String)
    (hev : DriverEvent.submitted env ∈
      (env_list.map (fun e => (queueEnv (o.interrupt_at e) e).2)).flatten) :
    env ∈ env_list ∧ o.interrupt_at env = false := by
  induction env_list with
  | nil => simp at hev
  | cons e rest ih =>
    simp only [List.map_cons, List.flatten_cons, List.mem_append] at hev
    rcases hev with hev | hev
    · by_cases h : o.interrupt_at e
      · simp [queueEnv, h] at hev
      · simp [queueEnv, h] at hev
        rcases hev with rfl
        exact ⟨List.mem_cons_self _ _, by simpa using h⟩
    · obtain ⟨hm, hf⟩ := ih hev
      exact ⟨List.mem_cons_of_mem _ hm, hf⟩

/-- The wait phase emits no `submitted` event. -/
theorem resolveFuture_no_submitted (o : StepOracle) (f : FutureVal) (env : String) :
    DriverEvent.submitted env ∉ (resolveFuture o f).2 := by
  cases f with
  | preset r => simp [resolveFuture]
  | worker e =>
    cases h : o.worker_result e with
    | finished sk c outs d => simp [resolveFuture, h]
    | cancelled => simp [resolveFuture, h]

/-- A `submitted` event of a whole step comes from the queue phase. -/
theorem submitted_mem_step (todo : String → List String) (o : StepOracle)
    (s : DriverState) (env : String)
    (hev : DriverEvent.submitted env ∈ (step todo o s).2) :
    DriverEvent.submitted env ∈
      (s.env_list.map (fun e => (queueEnv (o.interrupt_at e) e).2)).flatten := by
  by_cases h : futuresAfterQueue o s = []
  · rw [step_eq_empty todo o s h] at hev
    exact hev
  · rw [step_eq_pop todo o s h] at hev
    rcases List.mem_append.mp hev with h' | h'
    · exact h'
    · exact absurd h' (resolveFuture_no_submitted _ _ _)

/-- Every event of the queue phase is an event of the whole step. -/
theorem queue_events_mem_step (todo : String → List String) (o : StepOracle)
    (s : DriverState) (ev : DriverEvent)
    (hev : ev ∈ (s.env_list.map (fun e => (queueEnv (o.interrupt_at e) e).2)).flatten) :
    ev ∈ (step todo o s).2 := by
  by_cases h : futuresAfterQueue o s = []
  · rw [step_eq_empty todo o s h]
    exact hev
  · rw [step_eq_pop todo o s h]
    exact List.mem_append_left _ hev

/-- The fold computing `all_ok` in `report` agrees with `List.all`. -/
theorem report_all_ok_eq_all (runs : List ToxEnvRunResult) :
    ∀ b : Bool, runs.foldl (fun acc run => (run.code == Outcome.OK) && acc) b
      = (runs.all (fun r => r.code == Outcome.OK) && b) := by
  induction runs with
  | nil => intro b; simp
  | cons r rest ih =>
    intro b
    simp only [List.foldl_cons, List.all_cons, ih]
    cases r.code == Outcome.OK <;> cases b <;> simp

/-! ## Claims -/

/-- C8. For every Outcome, `bool(outcome)` is true if and only if
`outcome.exit_code == 0` (`Outcome.__bool__`, `api.py` lines 180-181; an
unset `exit_code` compares unequal to `0`). -/
theorem outcome_truthy_iff_exit_code_zero (o : Outcome) :
    o.toBool = true ↔ o.exit_code = some 0 := by
  simp [Outcome.toBool, Outcome.OK]

/-- C1 counterexample. Two environments, the first failing with code 1 and
the second passing: `report` returns `-1`, not the exit code `1` the claim
states for a multi-environment run with a failure. -/
theorem report_multi_env_failure_returns_neg_one :
    report [⟨"a", false, 1, [], 0⟩, ⟨"b", false, 0, [], 0⟩] = -1 ∧ (-1 : Int) ≠ 1 := by
  decide

/-- C1 (amended). The exit code `report` returns is `0` when every
environment's RunResult has code `0`; a run over exactly one environment
propagates that environment's exact code; and a run over two or more
environments in which some non-skipped environment failed returns `-1`
(not `1`). -/
theorem report_exit_code_amended (runs : List ToxEnvRunResult) :
    ((∀ r ∈ runs, r.code = 0) → report runs = 0) ∧
    (∀ r0, runs = [r0] → report runs = r0.code) ∧
    ((∃ r ∈ runs, r.code ≠ 0 ∧ r.skipped = false) → 2 ≤ runs.length → report runs = -1) := by
  refine ⟨?_, ?_, ?_⟩
  · intro hall
    have hall' : runs.all (fun r => r.code == Outcome.OK) = true := by
      rw [List.all_eq_true]
      intro r hr
      simpa [Outcome.OK] using hall r hr
    simp only [report]
    rw [report_all_ok_eq_all, hall']
    simp [Outcome.OK]
  · rintro r0 rfl
    by_cases h : r0.code = 0
    · simp only [report]
      rw [report_all_ok_eq_all]
      simp [Outcome.OK, h]
    · simp only [report]
      rw [report_all_ok_eq_all]
      simp [Outcome.OK, h]
  · rintro ⟨r, hr, hcode, -⟩ hlen
    have hall : runs.all (fun r => r.code == Outcome.OK) = false := by
      rw [List.all_eq_false]
      exact ⟨r, hr, by simpa [Outcome.OK] using hcode⟩
    simp only [report]
    rw [report_all_ok_eq_all, hall]
    simp only [Bool.false_and, Bool.false_eq_true, if_false]
    rcases runs with _ | ⟨r0, _ | ⟨r1, rest⟩⟩
    · simp at hlen
    · simp at hlen
    · rfl

/-- C1 witness. The amended statement evaluated at an all-passing run, a
single failing run, and a two-environment run with one failure. -/
theorem report_exit_code_amended_witness :
    report [⟨"a", false, 0, [], 0⟩] = 0 ∧
    report [⟨"a", false, 5, [], 0⟩] = 5 ∧
    report [⟨"a", false, 1, [], 0⟩, ⟨"b", false, 2, [], 0⟩] = -1 :=
  ⟨(report_exit_code_amended _).1 (by decide),
   (report_exit_code_amended _).2.1 ⟨"a", false, 5, [], 0⟩ rfl,
   (report_exit_code_amended _).2.2 ⟨⟨"a", false, 1, [], 0⟩, by decide, by decide, rfl⟩
     (by decide)⟩

/-- C3 (evaluation at the failing input). A child alive at cascade start
that survives both bounded waits receives INT, a 300 ms wait, TERM, then —
diverging from the claimed 200 ms — another 300 ms (`WAIT_INTERRUPT`)
wait, then KILL and an unbounded wait; the residual output goes to the two
handlers and the final return code is returned. `WAIT_TERMINATE = 200` is
defined but appears in no wait of the trace. -/
theorem interrupt_cascade_stage_two_uses_interrupt_wait :
    interruptCascade (some ⟨true, false, false, ("", ""), ("", ""), ("o", "e"), none, -9⟩) =
      ([.send_signal_int, .communicate (some WAIT_INTERRUPT),
        .terminate, .communicate (some WAIT_INTERRUPT),
        .kill, .communicate none,
        .out_handler "o", .err_handler "e"], -9) ∧
    WAIT_INTERRUPT = 300 ∧ WAIT_TERMINATE = 200 ∧
    CascadeEvent.communicate (some WAIT_TERMINATE) ∉
      (interruptCascade (some ⟨true, false, false, ("", ""), ("", ""), ("o", "e"),
        none, -9⟩)).1 := by
  decide

/-- C4 counterexample. Order `[x, a, b]` with `a` depending on the not yet
completed `x` and `b` free: the generator yields `[x, b]`, while advancing
only until the first environment with unmet dependencies would yield
`[x]`. -/
theorem ready_batch_not_prefix_of_order :
    (readyToRunEnvsNext ["x", "a", "b"] (fun e => if e = "a" then ["x"] else []) []).1
      = ["x", "b"] ∧
    batchUpToFirstBlocked ["x", "a", "b"] (fun e => if e = "a" then ["x"] else []) []
      = ["x"] ∧
    (["x", "b"] : List String) ≠ ["x"] := by
  decide

/-- C4 (amended). Each advance of the generator yields every environment of
the remaining topological order whose tracked dependencies are all
completed — not merely the prefix before the first blocked one — and keeps
the blocked environments, in order, for later batches; when nothing is
ready the yielded batch is empty (the generator never blocks: it is a pure
advance). -/
theorem ready_batch_collects_all_ready (order : List String)
    (todo : String → List String) (completed : List String) :
    (readyToRunEnvsNext order todo completed).1
        = order.filter (fun e => (todo e).all (fun d => d ∈ completed)) ∧
    (readyToRunEnvsNext order todo completed).2
        = order.filter (fun e => !(todo e).all (fun d => d ∈ completed)) := by
  unfold readyToRunEnvsNext
  split
  · next h => simp_all [List.isEmpty_iff]
  · rw [collectBatch_eq_filter]
    exact ⟨rfl, rfl⟩

/-- C2. In every reachable state of the driver loop, a worker submitted to
the pool during the next iteration is for an environment whose every
`depends` name that is also in the `to_run` universe is already in the
completed set — unless the interrupt flag read true for it (in which case
no worker is submitted at all). -/
theorem worker_submission_only_after_deps (univ : List String)
    (depends : String → List String) (s : DriverState) (o : StepOracle) (env : String)
    (hs : Reachable (todoOf univ depends) s)
    (hev : DriverEvent.submitted env ∈ (step (todoOf univ depends) o s).2) :
    o.interrupt_at env = true ∨ ∀ d ∈ depends env, d ∈ univ → d ∈ s.completed := by
  have hq := submitted_mem_step _ o s env hev
  obtain ⟨hmem, hflag⟩ := submitted_mem_queue_events o s.env_list env hq
  right
  intro d hd hdu
  have hall := reachable_env_list_ready _ s hs env hmem
  rw [List.all_eq_true] at hall
  have : d ∈ todoOf univ depends env := by
    simp [todoOf, List.mem_filter, hd, hdu]
  simpa using hall d this

/-- C2 witness. Universe `["x"]` with no dependencies: after one warm-up
iteration the driver submits `x`, and the submission conclusion holds. -/
theorem worker_submission_only_after_deps_witness :
    (⟨fun _ => false, 0, fun _ => .finished false 0 [] 0⟩ : StepOracle).interrupt_at "x"
        = true ∨
    ∀ d ∈ ([] : List String), d ∈ ["x"] →
      d ∈ ((step (todoOf ["x"] (fun _ => []))
             ⟨fun _ => false, 0, fun _ => .finished false 0 [] 0⟩
             ⟨[], [], [], [], ["x"]⟩).1).completed :=
  worker_submission_only_after_deps ["x"] (fun _ => []) _ _ "x"
    (Reachable.next _ _ (Reachable.init ["x"]))
    (by decide)

/-- C5. An environment of the pending batch for which the interrupt flag
reads true is torn down and queued as a pre-resolved result with
`code = -2` and no outcomes, and no worker is submitted for it; and when
the popped future is a worker whose future was cancelled, the collected
result appended to `results` is synthesized with `code = -3` and no
outcomes (after the env's teardown). -/
theorem interrupted_and_cancelled_results_synthesized (todo : String → List String)
    (o : StepOracle) (s : DriverState) (env : String) :
    (env ∈ s.env_list → o.interrupt_at env = true →
       DriverEvent.teardown env ∈ (step todo o s).2 ∧
       DriverEvent.preset_queued ⟨env, false, -2, [], MISS_DURATION⟩ ∈ (step todo o s).2 ∧
       DriverEvent.submitted env ∉ (step todo o s).2) ∧
    ((futuresAfterQueue o s)[o.pick % (futuresAfterQueue o s).length]?
        = some (.worker env) →
     o.worker_result env = .cancelled →
       (step todo o s).1.results = s.results ++ [⟨env, false, -3, [], MISS_DURATION⟩] ∧
       DriverEvent.teardown env ∈ (step todo o s).2) := by
  constructor
  · intro hmem hflag
    have hqev : DriverEvent.teardown env ∈
        (s.env_list.map (fun e => (queueEnv (o.interrupt_at e) e).2)).flatten ∧
        DriverEvent.preset_queued ⟨env, false, -2, [], MISS_DURATION⟩ ∈
        (s.env_list.map (fun e => (queueEnv (o.interrupt_at e) e).2)).flatten := by
      constructor
      · refine List.mem_flatten.mpr ⟨(queueEnv (o.interrupt_at env) env).2,
          List.mem_map_of_mem _ hmem, ?_⟩
        simp [queueEnv, hflag]
      · refine List.mem_flatten.mpr ⟨(queueEnv (o.interrupt_at env) env).2,
          List.mem_map_of_mem _ hmem, ?_⟩
        simp [queueEnv, hflag]
    have hnosub : DriverEvent.submitted env ∉ (step todo o s).2 := by
      intro hev
      have := submitted_mem_queue_events o s.env_list env
        (submitted_mem_step todo o s env hev)
      rw [hflag] at this
      exact absurd this.2 (by simp)
    exact ⟨queue_events_mem_step todo o s _ hqev.1,
           queue_events_mem_step todo o s _ hqev.2, hnosub⟩
  · intro hpick hcancel
    have h : ¬futuresAfterQueue o s = [] := by
      intro h0
      rw [h0] at hpick
      simp at hpick
    have hlt : o.pick % (futuresAfterQueue o s).length < (futuresAfterQueue o s).length :=
      Nat.mod_lt _ (List.length_pos.mpr h)
    have hget : (futuresAfterQueue o s).get
        ⟨o.pick % (futuresAfterQueue o s).length, hlt⟩ = .worker env := by
      rw [List.getElem?_eq_getElem hlt] at hpick
      simpa [List.get_eq_getElem] using hpick
    rw [step_eq_pop todo o s h]
    rw [hget]
    simp [resolveFuture, hcancel]

/-- C5 witness. Part one at a one-env batch under an interrupt observed
set; part two at a single pending cancelled worker. -/
theorem interrupted_and_cancelled_results_synthesized_witness :
    (DriverEvent.teardown "e" ∈
       (step (fun _ => []) ⟨fun _ => true, 0, fun _ => .cancelled⟩
         ⟨["e"], [], [], [], []⟩).2 ∧
     DriverEvent.preset_queued ⟨"e", false, -2, [], MISS_DURATION⟩ ∈
       (step (fun _ => []) ⟨fun _ => true, 0, fun _ => .cancelled⟩
         ⟨["e"], [], [], [], []⟩).2 ∧
     DriverEvent.submitted "e" ∉
       (step (fun _ => []) ⟨fun _ => true, 0, fun _ => .cancelled⟩
         ⟨["e"], [], [], [], []⟩).2) ∧
    ((step (fun _ => []) ⟨fun _ => false, 0, fun _ => .cancelled⟩
        ⟨[], [.worker "w"], [], [], []⟩).1.results
          = [] ++ [⟨"w", false, -3, [], MISS_DURATION⟩] ∧
     DriverEvent.teardown "w" ∈
       (step (fun _ => []) ⟨fun _ => false, 0, fun _ => .cancelled⟩
         ⟨[], [.worker "w"], [], [], []⟩).2) :=
  ⟨(interrupted_and_cancelled_results_synthesized (fun _ => [])
      ⟨fun _ => true, 0, fun _ => .cancelled⟩ ⟨["e"], [], [], [], []⟩ "e").1
      (by decide) rfl,
   (interrupted_and_cancelled_results_synthesized (fun _ => [])
      ⟨fun _ => false, 0, fun _ => .cancelled⟩ ⟨[], [.worker "w"], [], [], []⟩ "w").2
      (by decide) rfl⟩

/-- C6. A spawn failure whose `OSError` carries a non-`0` error code yields
an immediate Outcome with that code as `exit_code`, empty `out` and `err`
buffers, false truthiness, and — when `PATH` resolution found no
executable — the original argv as its resolved `cmd`. -/
theorem spawn_failure_outcome (request : ExecuteRequest) (showFlag : Bool)
    (whichFn : String → String → Option String) (errno : Option Int)
    (startT endT : Int) (word : String) (rest : List String) (path : String)
    (hcmd : request.cmd = word :: rest)
    (hpath : lookupEnv request.env "PATH" = some path)
    (hwhich : whichFn word path = none)
    (herrno : errno ≠ some 0) :
    ∃ o, callSpawnFailure request showFlag whichFn errno startT endT = .ok o ∧
      o.exit_code = errno ∧ o.out = "" ∧ o.err = "" ∧
      o.toBool = false ∧ o.cmd = request.cmd := by
  refine ⟨{ request := request, show_on_standard := showFlag, exit_code := errno,
            out := "", err := "", start := startT, end_ := endT, cmd := word :: rest },
          ?_, rfl, rfl, rfl, ?_, ?_⟩
  · simp [callSpawnFailure, cmdCompute, hcmd, hpath, hwhich]
  · exact beq_eq_false_iff_ne.mpr herrno
  · exact hcmd.symm

/-- C6 witness. A request for a missing executable (`errno = 2`,
`which` finds nothing) evaluated concretely. -/
theorem spawn_failure_outcome_witness :
    ∃ o, callSpawnFailure ⟨["sys-must-be-missing"], "/", [("PATH", "/usr/bin")], .OFF⟩
        false (fun _ _ => none) (some 2) 0 1 = .ok o ∧
      o.exit_code = some 2 ∧ o.out = "" ∧ o.err = "" ∧
      o.toBool = false ∧
      o.cmd = (⟨["sys-must-be-missing"], "/", [("PATH", "/usr/bin")],
        .OFF⟩ : ExecuteRequest).cmd :=
  spawn_failure_outcome ⟨["sys-must-be-missing"], "/", [("PATH", "/usr/bin")], .OFF⟩
    false (fun _ _ => none) (some 2) 0 1 "sys-must-be-missing" [] "/usr/bin"
    rfl rfl rfl (by decide)

/-- C9. When the request's environment snapshot holds no `PATH` key, the
`cmd` property of a fresh instance fails with a lookup error rather than
passing argv through; and once an access has succeeded, every later access
returns the same cached command without recomputation. -/
theorem cmd_requires_path_and_caches (argv : List String) (env : List (String × String))
    (whichFn : String → String → Option String) :
    (argv ≠ [] → lookupEnv env "PATH" = none →
       cmd_property ⟨none⟩ argv env whichFn = .error .keyError) ∧
    (∀ st c st', cmd_property st argv env whichFn = .ok (c, st') →
       cmd_property st' argv env whichFn = .ok (c, st')) := by
  constructor
  · intro hne hpath
    rcases argv with _ | ⟨w, rest⟩
    · exact absurd rfl hne
    · simp [cmd_property, cmdCompute, hpath]
  · intro st c st' hok
    rcases st with ⟨_ | ⟨cached⟩⟩
    · rcases hcc : cmdCompute argv env whichFn with e | c1
      · simp [cmd_property, hcc] at hok
      · simp [cmd_property, hcc] at hok
        obtain ⟨rfl, rfl⟩ := hok
        simp [cmd_property]
    · simp [cmd_property] at hok
      obtain ⟨rfl, rfl⟩ := hok
      simp [cmd_property]

/-- C9 witness. A `PATH`-less snapshot raises the lookup error; a cached
instance keeps returning the resolved command. -/
theorem cmd_requires_path_and_caches_witness :
    cmd_property ⟨none⟩ ["x"] [] (fun _ _ => none) = .error .keyError ∧
    cmd_property ⟨some ["x"]⟩ ["x"] [("PATH", "p")] (fun _ _ => none)
      = .ok (["x"], ⟨some ["x"]⟩) :=
  ⟨(cmd_requires_path_and_caches ["x"] [] (fun _ _ => none)).1 (by decide) rfl,
   (cmd_requires_path_and_caches ["x"] [("PATH", "p")] (fun _ _ => none)).2
     ⟨none⟩ ["x"] ⟨some ["x"]⟩ rfl⟩

/-- C7 counterexample. One running environment whose name is 120
characters long: `max_width = 120` yet the rendered line is 121 characters
— the truncation bounds only the text after the glyph and the space. -/
theorem frame_line_exceeds_max_width :
    Spinner.max_width = 120 ∧
    ((Spinner.frame ⟨[(String.mk (List.replicate 120 'a'), 0)], 0, true⟩).1).length
      = 121 := by
  constructor
  · rfl
  · set_option maxRecDepth 4096 in rfl

/-- C7 (amended). A rendered frame is the rotating glyph (one character,
drawn from the frame list), a space, and a text portion of the form
`[count]` followed by the running env names joined by a pipe separator
(not a comma); the truncation bounds the text portion by `max_width - 1`
characters, so the whole line is bounded by `max_width + 1` (and can
exceed `max_width`, as the counterexample shows). -/
theorem frame_shape_amended (st : Spinner.State)
    (h : st.frame_index < Spinner.frames.length) :
    ∃ g ∈ Spinner.frames,
      (Spinner.frame st).1 = g ++ ' ' :: Spinner.text_frame st.envs ∧
      g.length = 1 ∧
      (Spinner.text_frame st.envs).length ≤ Spinner.max_width - 1 ∧
      (Spinner.frame st).1.length ≤ Spinner.max_width + 1 := by
  obtain ⟨envs, idx, en⟩ := st
  have ht : (Spinner.text_frame envs).length ≤ Spinner.max_width - 1 := by
    simp only [Spinner.text_frame]
    split
    · simp [Spinner.max_width, List.length_take]
    · next hle =>
      simp [Spinner.max_width] at hle ⊢
      omega
  have hg : Spinner.frames.getD idx [] ∈ Spinner.frames ∧
      (Spinner.frames.getD idx []).length = 1 := by
    have h10 : idx < 10 := by simpa [Spinner.frames] using h
    interval_cases idx <;> simp [Spinner.frames]
  refine ⟨Spinner.frames.getD idx [], hg.1, rfl, hg.2, ht, ?_⟩
  have hlen : ((Spinner.frame ⟨envs, idx, en⟩).1).length
      = (Spinner.frames.getD idx []).length + 1 + (Spinner.text_frame envs).length := by
    simp [Spinner.frame]
    omega
  rw [hlen, hg.2]
  simp [Spinner.max_width] at ht ⊢
  omega

/-- C7 witness. The amended shape at an empty running set. -/
theorem frame_shape_amended_witness :
    ∃ g ∈ Spinner.frames,
      (Spinner.frame ⟨[], 0, true⟩).1 = g ++ ' ' :: Spinner.text_frame [] ∧
      g.length = 1 ∧
      (Spinner.text_frame []).length ≤ Spinner.max_width - 1 ∧
      (Spinner.frame ⟨[], 0, true⟩).1.length ≤ Spinner.max_width + 1 :=
  frame_shape_amended ⟨[], 0, true⟩ (by decide)

/-- A dict read misses exactly when the key is absent. -/
theorem dictGet_eq_none_iff (l : List (String × Nat)) (k : String) :
    Spinner.dictGet l k = none ↔ k ∉ l.map Prod.fst := by
  simp [Spinner.dictGet, List.find?_eq_none, List.mem_map]
  constructor
  · intro h v hmem
    exact h k v hmem rfl
  · intro h a b hmem hak
    subst hak
    exact h b hmem

/-- Deleting a key removes it from the dict. -/
theorem not_mem_dictDel (l : List (String × Nat)) (k : String) :
    k ∉ (Spinner.dictDel l k).map Prod.fst := by
  simp [Spinner.dictDel, List.mem_map, List.mem_filter]

/-- C10. Finalizing a name that was never added, or was already finalized,
raises `KeyError` and prints nothing; a successful finalize removes the
name from the running set, so finalizing it again always fails. `succeed`,
`fail` and `skip` are `finalize` at their fixed status strings. -/
theorem finalize_unknown_name_keyerror (st : Spinner.State) (key status : String)
    (now : Nat) :
    (key ∉ st.envs.map Prod.fst →
       Spinner.finalize st key status now = .error .keyError) ∧
    (∀ line st', Spinner.finalize st key status now = .ok (line, st') →
       key ∉ st'.envs.map Prod.fst ∧
       ∀ status2 now2, Spinner.finalize st' key status2 now2 = .error .keyError) ∧
    Spinner.succeed st key now = Spinner.finalize st key "✔ OK" now ∧
    Spinner.fail st key now = Spinner.finalize st key "✖ FAIL" now ∧
    Spinner.skip st key now = Spinner.finalize st key "⚠ SKIP" now := by
  refine ⟨?_, ?_, rfl, rfl, rfl⟩
  · intro hnot
    have hg : Spinner.dictGet st.envs key = none := (dictGet_eq_none_iff _ _).mpr hnot
    simp [Spinner.finalize, hg]
  · intro line st' hok
    rcases hg : Spinner.dictGet st.envs key with _ | start_at
    · simp [Spinner.finalize, hg] at hok
    · simp [Spinner.finalize, hg] at hok
      obtain ⟨-, rfl⟩ := hok
      refine ⟨not_mem_dictDel _ _, ?_⟩
      intro status2 now2
      have hg2 : Spinner.dictGet (Spinner.dictDel st.envs key) key = none :=
        (dictGet_eq_none_iff _ _).mpr (not_mem_dictDel _ _)
      simp [Spinner.finalize, hg2]

/-- C10 witness. After adding `a`: finalizing `b` fails; finalizing `a`
succeeds and leaves a state in which finalizing `a` again fails. -/
theorem finalize_unknown_name_keyerror_witness :
    Spinner.finalize (Spinner.add ⟨[], 0, true⟩ "a" 0) "b" "s" 1 = .error .keyError ∧
    ("a" ∉ ((⟨[], 0, true⟩ : Spinner.State).envs.map Prod.fst) ∧
     ∀ status2 now2,
       Spinner.finalize ⟨[], 0, true⟩ "a" status2 now2 = .error .keyError) :=
  ⟨(finalize_unknown_name_keyerror (Spinner.add ⟨[], 0, true⟩ "a" 0) "b" "s" 1).1
     (by decide),
   (finalize_unknown_name_keyerror (Spinner.add ⟨[], 0, true⟩ "a" 0) "a" "s" 5).2.1
     ("s", "a", 5) ⟨[], 0, true⟩ rfl⟩

end Tox
